import Mathlib

/-!
# Verification of the RSS feed aggregation pipeline (`src/feeds/rss_reader.py`)

Shallow embedding of the feed-reader core:

* `Article` mirrors the Python dataclass `Article` (naive datetimes are
  modelled as `Int` wall-clock seconds).
* `TimeStruct` mirrors a Python 9-field `time.struct_time` tuple, such as the
  fallback constant `(2025, 10, 4, 0, 0, 0, 5, 277, 0)` at line 76.
* `Entry` mirrors a feedparser entry dict: `entry.get(k, d)` returns the
  default only when the key is absent, so `published_parsed` is
  `Option (Option TimeStruct)`: `none` = key absent (the `.get` default
  applies), `some none` = key present with value `None` (feedparser yields
  this for a present-but-unparseable date string), `some (some t)` = parsed.
* `Feed` mirrors a `FeedParserDict`: a feed-level title (`feed.feed.get`)
  and an entry list. Fetching (`fetch_feed_urllib`) is a parameter
  `fetch : String → Option Feed`; `none` models the `except` branches that
  print a warning and return `None`.
* Local-time functions are modelled with an explicit fixed timezone offset
  `tz` (seconds east of UTC; DST is not modelled): `datetime.now()` is
  `t0 + tz` for the absolute instant `t0`, `time.mktime` converts wall-clock
  fields to an epoch instant by subtracting `tz`, and
  `datetime.fromtimestamp` adds `tz` back.
* A Python exception escaping `get_recent_articles` (e.g. `TypeError` from
  `time.mktime(None)`) is modelled as `Except.error`.
-/

structure TimeStruct where
  year : Int
  month : Int
  day : Int
  hour : Int
  minute : Int
  second : Int
  wday : Int
  yday : Int
  isdst : Int
deriving DecidableEq, Repr

structure Entry where
  title : Option String
  link : Option String
  published_parsed : Option (Option TimeStruct)
deriving DecidableEq, Repr

structure Feed where
  feed_title : Option String
  entries : List Entry
deriving DecidableEq, Repr

structure Article where
  title : String
  link : String
  published : Int
  feed : String
  feed_title : String
deriving DecidableEq, Repr

/-- Civil-calendar day count (days since 1970-01-01) of a year/month/day,
the standard "days from civil" computation used by libc `mktime`. -/
def daysFromCivil (y m d : Int) : Int :=
  let y2 := if m ≤ 2 then y - 1 else y
  let era := (if 0 ≤ y2 then y2 else y2 - 399) / 400
  let yoe := y2 - era * 400
  let mp := (m + 9) % 12
  let doy := (153 * mp + 2) / 5 + d - 1
  let doe := yoe * 365 + yoe / 4 - yoe / 100 + doy
  era * 146097 + doe - 719468

/-- Wall-clock seconds denoted by a `struct_time` (`wday`/`yday`/`isdst`
are ignored, as `mktime` recomputes them; DST is not modelled). -/
def structToWallSec (t : TimeStruct) : Int :=
  daysFromCivil t.year t.month t.day * 86400
    + t.hour * 3600 + t.minute * 60 + t.second

/-- `time.mktime`: interpret a struct as local wall-clock time in the zone
with offset `tz` seconds and return the absolute epoch instant. -/
def mktime (tz : Int) (t : TimeStruct) : Int :=
  structToWallSec t - tz

/-- `datetime.fromtimestamp`: convert an absolute epoch instant to the naive
local wall-clock value in the zone with offset `tz` seconds. -/
def fromtimestamp (tz : Int) (epoch : Int) : Int :=
  epoch + tz

/-- The fallback `published_parsed` default at line 76 of `rss_reader.py`:
the tuple `(2025, 10, 4, 0, 0, 0, 5, 277, 0)`. -/
def fallbackStruct : TimeStruct :=
  { year := 2025, month := 10, day := 4, hour := 0, minute := 0, second := 0,
    wday := 5, yday := 277, isdst := 0 }

/-- `cutoff_date = datetime.now() - timedelta(days=days_back)` (line 64):
local wall-clock now (`t0 + tz`) minus the window in seconds. -/
def cutoff_date (tz t0 : Int) (days_back : Int) : Int :=
  (t0 + tz) - days_back * 86400

/-- Lines 78-87 once the publish struct is in hand: compute
`article_date = datetime.fromtimestamp(time.mktime(published_date))`, resolve
the link (`entry.get("link", "")`), the title (`entry.get("title", "No title")`)
and the feed title (`feed.feed.get("title", "Unknown feed")`), and keep the
article iff the link is non-empty and the date is at or after the cutoff. -/
def buildArticle (tz cutoff : Int) (url : String) (ftitle : Option String)
    (t : TimeStruct) (e : Entry) : Option Article :=
  let article_date := fromtimestamp tz (mktime tz t)
  let link := e.link.getD ""
  let title := e.title.getD "No title"
  let feed_title := ftitle.getD "Unknown feed"
  if link ≠ "" ∧ cutoff ≤ article_date then
    some { title := title, link := link, published := article_date,
           feed := url, feed_title := feed_title }
  else
    none

/-- The per-entry body of the loop at lines 73-87: resolve
`entry.get("published_parsed", fallback)`, then build the article.
A present-but-`None` `published_parsed` reaches `time.mktime(None)`,
which raises `TypeError`. -/
def entryArticle (tz cutoff : Int) (url : String) (ftitle : Option String)
    (e : Entry) : Except String (Option Article) :=
  match e.published_parsed with
  | some none =>
      Except.error "TypeError: Tuple or struct_time argument required"
  | some (some t) =>
      Except.ok (buildArticle tz cutoff url ftitle t e)
  | none =>
      Except.ok (buildArticle tz cutoff url ftitle fallbackStruct e)

/-- The `for entry in feed.entries` loop (lines 73-87), threading the
`recent_articles` accumulator; an uncaught `TypeError` aborts the run. -/
def entriesLoop (tz cutoff : Int) (url : String) (ftitle : Option String)
    (acc : List Article) : List Entry → Except String (List Article)
  | [] => Except.ok acc
  | e :: rest =>
      match entryArticle tz cutoff url ftitle e with
      | Except.error msg => Except.error msg
      | Except.ok none => entriesLoop tz cutoff url ftitle acc rest
      | Except.ok (some a) => entriesLoop tz cutoff url ftitle (acc ++ [a]) rest

/-- The `for url in feed_urls` loop (lines 67-89): fetch each URL; a `None`
feed is skipped (`continue`); otherwise process its entries into the shared
accumulator.  (`time.sleep(0.5)` has no effect on the value.) -/
def urlsLoop (fetch : String → Option Feed) (tz cutoff : Int)
    (acc : List Article) : List String → Except String (List Article)
  | [] => Except.ok acc
  | url :: rest =>
      match fetch url with
      | none => urlsLoop fetch tz cutoff acc rest
      | some feed =>
          match entriesLoop tz cutoff url feed.feed_title acc feed.entries with
          | Except.error msg => Except.error msg
          | Except.ok acc2 => urlsLoop fetch tz cutoff acc2 rest

/-- `get_recent_articles(feed_urls, days_back)` (lines 60-91): compute the
cutoff once, then run the URL loop starting from an empty accumulator. -/
def get_recent_articles (fetch : String → Option Feed) (tz t0 : Int)
    (feed_urls : List String) (days_back : Int) :
    Except String (List Article) :=
  urlsLoop fetch tz (cutoff_date tz t0 days_back) [] feed_urls

/-- The articles one URL contributes, in entry order: empty when the fetch
fails, otherwise the successful per-entry results in order (errors mapped to
no contribution; used only to characterise error-free runs). -/
def urlContribution (fetch : String → Option Feed) (tz cutoff : Int)
    (url : String) : List Article :=
  match fetch url with
  | none => []
  | some feed =>
      feed.entries.filterMap fun e =>
        ((entryArticle tz cutoff url feed.feed_title e).toOption).getD none

/-- The comparison used by `articles.sort(key=lambda a: a.published,
reverse=True)`: `a` may come before `b` iff `b.published ≤ a.published`. -/
def articleLe (a b : Article) : Bool :=
  decide (b.published ≤ a.published)

/-- The ordering stage, line 188:
`articles.sort(key=lambda a: a.published, reverse=True)` — Python's stable
sort (Timsort) under the reversed key comparison; any stable sort computes
the same list, so it is embedded as a stable merge sort. -/
def order (articles : List Article) : List Article :=
  articles.mergeSort articleLe

/-- `main`'s URL-list construction, lines 177-178:
`feed_urls = [line for line in f.readlines()]` — the identity comprehension
over the file's lines, which keep their trailing newline characters. -/
def main_feed_urls (file_lines : List String) : List String :=
  file_lines.map fun line => line

/-- Python's ASCII whitespace characters, the ones `str.strip()` removes
from the URL lines at hand. -/
def wsChar (c : Char) : Bool :=
  c == ' ' || c == '\t' || c == '\n' || c == '\r' || c == '\x0b' || c == '\x0c'

/-- Python `str.rstrip()` on ASCII whitespace: the input line with its
trailing whitespace/newline characters removed. -/
def rstripWs (s : String) : String :=
  String.mk ((s.data.reverse.dropWhile wsChar).reverse)

/-- Python `str.strip()` on ASCII whitespace: leading and trailing
whitespace removed. -/
def pyStrip (s : String) : String :=
  String.mk (((s.data.dropWhile wsChar).reverse.dropWhile wsChar).reverse)

/-- `urllib.parse.unwrap`, which the `full_url` setter of
`urllib.request.Request` applies to the URL string before any request is
made: `str(url).strip()`, then peeling one `<...>` wrapper (re-stripping),
then a leading `URL:` prefix (re-stripping). -/
def unwrap (url : String) : String :=
  let u := pyStrip url
  let u2 := if u.data.head? = some '<' ∧ u.data.getLast? = some '>'
    then pyStrip (String.mk ((u.data.drop 1).dropLast)) else u
  if u2.data.take 4 = ['U', 'R', 'L', ':']
    then pyStrip (String.mk (u2.data.drop 4)) else u2

/-- `fetch_feed_urllib(url)` (lines 31-57) seen through its network
behaviour: building `urllib.request.Request(url, ...)` normalises the URL
with `urllib.parse.unwrap` (so the HTTP GET at line 39 targets the unwrapped
URL), and the response — or `None` on any failure — is determined by that
requested URL, here abstracted as the network environment `net`. -/
def fetch_feed_urllib (net : String → Option Feed) (url : String) :
    Option Feed :=
  net (unwrap url)

/-- Scheduling events of one run of `get_recent_articles`. -/
inductive FeedEvent where
  | fetchStart : String → FeedEvent
  | fetchEnd : String → FeedEvent
  | sleep : FeedEvent
deriving DecidableEq, Repr

/-- The event trace of the loop at lines 67-89: for each URL in order, the
(blocking) call to `fetch_feed_urllib` starts and ends before anything else
happens, then `time.sleep(0.5)` runs, then the next URL is handled. -/
def runTrace : List String → List FeedEvent
  | [] => []
  | u :: rest =>
      FeedEvent.fetchStart u :: FeedEvent.fetchEnd u :: FeedEvent.sleep
        :: runTrace rest

/-- Number of fetches in flight after one event. -/
def inFlightStep (n : Nat) : FeedEvent → Nat
  | FeedEvent.fetchStart _ => n + 1
  | FeedEvent.fetchEnd _ => n - 1
  | FeedEvent.sleep => n

/-- Largest number of simultaneously in-flight fetches along a trace,
starting from `n` in flight. -/
def maxInFlight (n : Nat) : List FeedEvent → Nat
  | [] => 0
  | e :: es => max (inFlightStep n e) (maxInFlight (inFlightStep n e) es)

/-! ## Helper lemmas -/

/-- `datetime.fromtimestamp(time.mktime(t))` round-trips: the timezone offset
cancels, leaving the wall-clock value of the struct itself. -/
theorem fromtimestamp_mktime (tz : Int) (t : TimeStruct) :
    fromtimestamp tz (mktime tz t) = structToWallSec t := by
  simp [fromtimestamp, mktime]

theorem entriesLoop_acc (tz c : Int) (url : String) (ft : Option String)
    (es : List Entry) (acc : List Article) :
    entriesLoop tz c url ft acc es
      = (entriesLoop tz c url ft [] es).map (acc ++ ·) := by
  induction es generalizing acc with
  | nil => simp [entriesLoop, Except.map]
  | cons e rest ih =>
    match h : entryArticle tz c url ft e with
    | Except.error msg => simp [entriesLoop, h, Except.map]
    | Except.ok none =>
      simp only [entriesLoop, h]
      exact ih acc
    | Except.ok (some a) =>
      simp only [entriesLoop, h, List.nil_append]
      rw [ih (acc ++ [a]), ih [a]]
      cases entriesLoop tz c url ft [] rest with
      | error msg => rfl
      | ok l => simp [Except.map]

theorem entriesLoop_ok (tz c : Int) (url : String) (ft : Option String)
    (es : List Entry) (m : List Article)
    (h : entriesLoop tz c url ft [] es = Except.ok m) :
    m = es.filterMap
      (fun e => ((entryArticle tz c url ft e).toOption).getD none) := by
  induction es generalizing m with
  | nil => cases h; simp
  | cons e rest ih =>
    match he : entryArticle tz c url ft e with
    | Except.error msg => simp [entriesLoop, he] at h
    | Except.ok none =>
      simp only [entriesLoop, he] at h
      simpa [he, Except.toOption] using ih m h
    | Except.ok (some a) =>
      simp only [entriesLoop, he, List.nil_append] at h
      rw [entriesLoop_acc] at h
      cases hr : entriesLoop tz c url ft [] rest with
      | error msg => rw [hr] at h; simp [Except.map] at h
      | ok l =>
        rw [hr] at h
        simp only [Except.map] at h
        cases h
        simp [he, Except.toOption, ih l hr]

theorem urlsLoop_acc (fetch : String → Option Feed) (tz c : Int)
    (us : List String) (acc : List Article) :
    urlsLoop fetch tz c acc us
      = (urlsLoop fetch tz c [] us).map (acc ++ ·) := by
  induction us generalizing acc with
  | nil => simp [urlsLoop, Except.map]
  | cons u rest ih =>
    match hf : fetch u with
    | none =>
      simp only [urlsLoop, hf]
      exact ih acc
    | some feed =>
      simp only [urlsLoop, hf]
      rw [entriesLoop_acc tz c u feed.feed_title feed.entries acc]
      cases he : entriesLoop tz c u feed.feed_title [] feed.entries with
      | error msg => rfl
      | ok m =>
        simp only [Except.map]
        rw [ih (acc ++ m), ih m]
        cases urlsLoop fetch tz c [] rest with
        | error msg => rfl
        | ok l => simp [Except.map]

theorem urlsLoop_ok (fetch : String → Option Feed) (tz c : Int)
    (us : List String) (l : List Article)
    (h : urlsLoop fetch tz c [] us = Except.ok l) :
    l = us.flatMap (urlContribution fetch tz c) := by
  induction us generalizing l with
  | nil => cases h; simp
  | cons u rest ih =>
    match hf : fetch u with
    | none =>
      simp only [urlsLoop, hf] at h
      simp [urlContribution, hf, ih l h]
    | some feed =>
      simp only [urlsLoop, hf] at h
      cases he : entriesLoop tz c u feed.feed_title [] feed.entries with
      | error msg => rw [he] at h; simp at h
      | ok m =>
        rw [he] at h
        simp only at h
        rw [urlsLoop_acc] at h
        cases hr : urlsLoop fetch tz c [] rest with
        | error msg => rw [hr] at h; simp [Except.map] at h
        | ok l2 =>
          rw [hr] at h
          simp only [Except.map] at h
          cases h
          simp [urlContribution, hf, ← entriesLoop_ok tz c u feed.feed_title feed.entries m he,
            ih l2 hr]

theorem buildArticle_some {tz c : Int} {u : String} {ft : Option String}
    {t : TimeStruct} {e : Entry} {a : Article}
    (h : buildArticle tz c u ft t e = some a) :
    a.feed = u ∧ a.link ≠ "" ∧ c ≤ a.published := by
  simp only [buildArticle] at h
  split at h
  · rename_i hc
    injection h with h
    subst h
    exact ⟨rfl, hc.1, hc.2⟩
  · cases h

theorem mem_urlContribution {fetch : String → Option Feed} {tz c : Int}
    {u : String} {a : Article} (h : a ∈ urlContribution fetch tz c u) :
    a.feed = u ∧ a.link ≠ "" ∧ c ≤ a.published := by
  unfold urlContribution at h
  match hf : fetch u with
  | none => rw [hf] at h; cases h
  | some feed =>
    rw [hf] at h
    obtain ⟨e, _, he⟩ := List.mem_filterMap.mp h
    match hp : entryArticle tz c u feed.feed_title e with
    | Except.error msg => rw [hp] at he; simp [Except.toOption] at he
    | Except.ok o =>
      rw [hp] at he
      simp only [Except.toOption, Option.getD_some] at he
      subst he
      unfold entryArticle at hp
      match he2 : e.published_parsed with
      | some none => rw [he2] at hp; cases hp
      | some (some t) =>
        rw [he2] at hp
        injection hp with hp
        exact buildArticle_some hp
      | none =>
        rw [he2] at hp
        injection hp with hp
        exact buildArticle_some hp

theorem articleLe_trans :
    ∀ a b c : Article, articleLe a b → articleLe b c → articleLe a c := by
  intro a b c hab hbc
  simp only [articleLe, decide_eq_true_eq] at *
  omega

theorem articleLe_total : ∀ a b : Article, articleLe a b || articleLe b a := by
  intro a b
  simp only [articleLe, Bool.or_eq_true, decide_eq_true_eq]
  omega

theorem order_perm (l : List Article) : (order l).Perm l :=
  List.mergeSort_perm l articleLe

theorem order_chain (l : List Article) :
    List.Chain' (fun a b : Article => b.published ≤ a.published) (order l) := by
  have h := List.sorted_mergeSort articleLe_trans articleLe_total l
  have h2 : (order l).Pairwise (fun a b : Article => b.published ≤ a.published) := by
    refine h.imp ?_
    intro a b hab
    simpa [articleLe] using hab
  exact h2.chain'

theorem order_filter_eq (l : List Article) (t : Int) :
    (order l).filter (fun a => a.published == t)
      = l.filter (fun a => a.published == t) := by
  have hpair : (l.filter (fun a => a.published == t)).Pairwise
      (fun a b => articleLe a b = true) := by
    apply List.pairwise_of_forall_mem_list
    intro a ha b hb
    have ha2 := (List.mem_filter.mp ha).2
    have hb2 := (List.mem_filter.mp hb).2
    simp only [beq_iff_eq] at ha2 hb2
    simp [articleLe, ha2, hb2]
  have hsub : List.Sublist (l.filter (fun a => a.published == t)) (order l) :=
    List.sublist_mergeSort articleLe_trans articleLe_total hpair
      (List.filter_sublist l)
  have hself : (l.filter (fun a => a.published == t)).filter
      (fun a => a.published == t) = l.filter (fun a => a.published == t) := by
    apply List.filter_eq_self.mpr
    intro a ha
    exact (List.mem_filter.mp ha).2
  have hsub2 : List.Sublist (l.filter (fun a => a.published == t))
      ((order l).filter (fun a => a.published == t)) := by
    have h3 := hsub.filter (fun a => a.published == t)
    rwa [hself] at h3
  have hlen : ((order l).filter (fun a => a.published == t)).length
      = (l.filter (fun a => a.published == t)).length :=
    ((List.mergeSort_perm l articleLe).filter (fun a => a.published == t)).length_eq
  exact (hsub2.eq_of_length hlen.symm).symm

/-! ## Concrete sample data used by witnesses and counterexamples -/

/-- A well-formed feed with one entry whose dates parse. -/
def sampleFeed : Feed :=
  { feed_title := some "Feed A",
    entries := [{ title := some "T1", link := some "L1",
                  published_parsed := some (some fallbackStruct) }] }

/-- A fetch environment where only `"http://a"` resolves. -/
def sampleFetch : String → Option Feed :=
  fun u => if u = "http://a" then some sampleFeed else none

/-- The article the pipeline extracts from `sampleFeed` at `"http://a"`. -/
def sampleArticle : Article :=
  { title := "T1", link := "L1", published := structToWallSec fallbackStruct,
    feed := "http://a", feed_title := "Feed A" }

/-- A feed whose only entry has a present-but-unparseable publish date
(feedparser sets `published_parsed` to `None`). -/
def unparseableDateFeed : Feed :=
  { feed_title := some "Feed B",
    entries := [{ title := some "T", link := some "L",
                  published_parsed := some none }] }

/-- A fetch environment where every URL resolves to `unparseableDateFeed`. -/
def unparseableDateFetch : String → Option Feed :=
  fun _ => some unparseableDateFeed

/-- A feed whose only entry has no `published_parsed` key at all, so the
fallback tuple applies. -/
def noDateFeed : Feed :=
  { feed_title := some "F",
    entries := [{ title := some "T", link := some "L",
                  published_parsed := none }] }

/-- A network environment: a server hosts a feed at `"http://e/f"` and
nothing else resolves. -/
def sampleNet : String → Option Feed :=
  fun u => if u = "http://e/f" then some noDateFeed else none

/-- A fetch environment where every URL yields one article published exactly
at the wall-clock instant of `fallbackStruct`. -/
def boundaryFetch : String → Option Feed :=
  fun _ => some { feed_title := some "F",
                  entries := [{ title := some "T", link := some "L",
                                published_parsed := some (some fallbackStruct) }] }

/-- The absolute instant exactly `7` days after the `fallbackStruct`
wall-clock instant, placing that article exactly on the cutoff when the
timezone offset is `0`. -/
def boundaryInstant : Int := structToWallSec fallbackStruct + 7 * 86400

/-! ## Claims -/

/-- **C1.** For every fetch environment, URL list and `days_back`, every
article in a successful run of `get_recent_articles` has a non-empty link
and a publish time at or after the cutoff, where the cutoff
`now - days_back` is computed once at the start of the run
(`cutoff_date tz t0 days_back`). -/
theorem c1_output_link_and_cutoff (fetch : String → Option Feed)
    (tz t0 : Int) (feed_urls : List String) (days_back : Int)
    (l : List Article) (a : Article)
    (h : get_recent_articles fetch tz t0 feed_urls days_back = Except.ok l)
    (ha : a ∈ l) :
    a.link ≠ "" ∧ cutoff_date tz t0 days_back ≤ a.published := by
  have hl := urlsLoop_ok fetch tz (cutoff_date tz t0 days_back) feed_urls l h
  subst hl
  obtain ⟨u, _, hmem⟩ := List.mem_flatMap.mp ha
  exact (mem_urlContribution hmem).2

theorem c1_output_link_and_cutoff_witness :
    sampleArticle.link ≠ "" ∧ cutoff_date 0 0 0 ≤ sampleArticle.published :=
  c1_output_link_and_cutoff sampleFetch 0 0 ["http://a"] 0
    [sampleArticle] sampleArticle rfl (List.mem_singleton.mpr rfl)

/-- **C2.** The ordering stage is a stable sort by `published` descending:
the output is a permutation of the input, every adjacent pair is
non-increasing in `published`, and the articles carrying any fixed
`published` value appear in the same relative order as before the sort
(hence repeated runs of the pure function `order` on identical input are
reproducible). -/
theorem c2_order_stable_descending (l : List Article) :
    (order l).Perm l ∧
    List.Chain' (fun a b : Article => b.published ≤ a.published) (order l) ∧
    ∀ t : Int, (order l).filter (fun a => a.published == t)
      = l.filter (fun a => a.published == t) :=
  ⟨order_perm l, order_chain l, fun t => order_filter_eq l t⟩

/-- **C3.** Partial-failure isolation: a URL whose fetch fails (the fetch
environment returns `none`) contributes zero articles and does not affect
the processing of the other URLs — removing it from any position of the URL
list leaves the run's result unchanged; in particular
`get_recent_articles [good, bad] = get_recent_articles [good]`. -/
theorem c3_failed_fetch_isolated (fetch : String → Option Feed)
    (tz t0 : Int) (days_back : Int) (us vs : List String) (bad : String)
    (h : fetch bad = none) :
    get_recent_articles fetch tz t0 (us ++ bad :: vs) days_back
      = get_recent_articles fetch tz t0 (us ++ vs) days_back := by
  unfold get_recent_articles
  generalize cutoff_date tz t0 days_back = c
  generalize hacc : ([] : List Article) = acc
  clear hacc
  induction us generalizing acc with
  | nil => simp [urlsLoop, h]
  | cons u rest ih =>
    match hf : fetch u with
    | none =>
      simp only [List.cons_append, urlsLoop, hf]
      exact ih acc
    | some feed =>
      simp only [List.cons_append, urlsLoop, hf]
      cases entriesLoop tz c u feed.feed_title acc feed.entries with
      | error msg => rfl
      | ok acc2 => exact ih acc2

theorem c3_failed_fetch_isolated_witness :
    get_recent_articles sampleFetch 0 0 ["http://a", "http://bad"] 0
      = get_recent_articles sampleFetch 0 0 ["http://a"] 0 :=
  c3_failed_fetch_isolated sampleFetch 0 0 0 ["http://a"] [] "http://bad" rfl

/-- **C4.** The claim that a run never raises is wrong on the code: an entry
whose publish-time representation is present but unparseable (feedparser
yields `published_parsed = None`) reaches `time.mktime(None)`, which raises
an uncaught `TypeError`, so `get_recent_articles` aborts instead of
completing; no report is rendered. -/
theorem c4_unparseable_date_raises :
    get_recent_articles unparseableDateFetch 0 0 ["http://b"] 7
      = Except.error "TypeError: Tuple or struct_time argument required" := rfl

/-- **C5.** The core strips the trailing whitespace/newline a line-oriented
URL list leaves on each entry before fetching: although `main` keeps the raw
lines (line 178), `urllib.request.Request` inside `fetch_feed_urllib`
normalises its URL with `urllib.parse.unwrap`, whose leading `str.strip()`
removes the whitespace — so for any URL line that itself starts with a
non-whitespace, non-`<` character and is not an `URL:`-prefixed wrapper, the
URL actually requested from the network equals the input line with its
trailing whitespace/newlines removed. -/
theorem c5_fetched_url_is_stripped_line (net : String → Option Feed)
    (line : String)
    (h1 : line.data.dropWhile wsChar = line.data)
    (h2 : ¬((rstripWs line).data.head? = some '<'
        ∧ (rstripWs line).data.getLast? = some '>'))
    (h3 : (rstripWs line).data.take 4 ≠ ['U', 'R', 'L', ':']) :
    fetch_feed_urllib net line = net (rstripWs line) := by
  have hps : pyStrip line = rstripWs line := by
    simp only [pyStrip, rstripWs, h1]
  simp only [fetch_feed_urllib, unwrap, hps]
  rw [if_neg h2, if_neg h3]

theorem c5_fetched_url_is_stripped_line_witness :
    fetch_feed_urllib sampleNet "http://e/f\n"
      = sampleNet (rstripWs "http://e/f\n") ∧
    rstripWs "http://e/f\n" = "http://e/f" ∧
    sampleNet (rstripWs "http://e/f\n") = some noDateFeed :=
  ⟨c5_fetched_url_is_stripped_line sampleNet "http://e/f\n"
      (by decide) (by decide) (by decide),
   by decide, by decide⟩

/-- **C6.** Missing-field defaulting: an entry with no title, no link-key
default interference, and no `published_parsed` key, in a feed with no
feed-level title, normalises to title `"No title"`, feed title
`"Unknown feed"`, and the fixed fallback timestamp (the wall-clock value of
the tuple `(2025, 10, 4, 0, 0, 0, 5, 277, 0)`); the entry is not dropped but
remains subject to the same cutoff comparison as any other entry. -/
theorem c6_missing_field_defaults (tz c : Int) (url lk : String) (e : Entry)
    (ht : e.title = none) (hp : e.published_parsed = none)
    (hl : e.link = some lk) :
    entryArticle tz c url none e
      = Except.ok (if lk ≠ "" ∧ c ≤ structToWallSec fallbackStruct
          then some { title := "No title", link := lk,
                      published := structToWallSec fallbackStruct,
                      feed := url, feed_title := "Unknown feed" }
          else none) := by
  simp [entryArticle, hp, buildArticle, hl, ht, fromtimestamp_mktime]

theorem c6_missing_field_defaults_witness :
    entryArticle 0 0 "http://a" none
        { title := none, link := some "L", published_parsed := none }
      = Except.ok (some { title := "No title", link := "L",
                          published := structToWallSec fallbackStruct,
                          feed := "http://a",
                          feed_title := "Unknown feed" }) := by
  rw [c6_missing_field_defaults 0 0 "http://a" "L" _ rfl rfl rfl]
  rw [if_pos]
  exact ⟨by decide, by decide⟩

/-- **C7 (counterexample).** Two runs at the same absolute instant that
differ only in the local timezone offset (UTC vs UTC+1) produce different
outputs: the cutoff is derived from the naive local `datetime.now()`, so an
article exactly on the UTC cutoff is included at offset `0` and excluded at
offset `3600`.  This refutes "two runs differing only in the local timezone
produce ... the same cutoff comparisons". -/
theorem c7_counterexample_tz_changes_output :
    get_recent_articles boundaryFetch 0 boundaryInstant ["http://a"] 7
      ≠ get_recent_articles boundaryFetch 3600 boundaryInstant ["http://a"] 7 := by
  intro hEq
  have h1 : get_recent_articles boundaryFetch 0 boundaryInstant ["http://a"] 7
      = Except.ok [{ title := "T", link := "L",
                     published := structToWallSec fallbackStruct,
                     feed := "http://a", feed_title := "F" }] := rfl
  have h2 : get_recent_articles boundaryFetch 3600 boundaryInstant ["http://a"] 7
      = Except.ok [] := rfl
  rw [h1, h2] at hEq
  simp at hEq

/-- **C7 (amended).** Normalization itself is deterministic and
timezone-independent: the per-entry normalization result — in particular the
`published` value produced by `datetime.fromtimestamp(time.mktime(...))`,
where the offsets cancel — is identical under any two timezone offsets, for
the same externally supplied cutoff.  (Only the cutoff, derived from the
naive local `now`, is timezone-dependent, as the counterexample shows.) -/
theorem c7_amended_normalization_tz_independent (tz tz2 c : Int)
    (url : String) (ft : Option String) (e : Entry) :
    entryArticle tz c url ft e = entryArticle tz2 c url ft e := by
  match hp : e.published_parsed with
  | some none => simp [entryArticle, hp]
  | some (some t) => simp [entryArticle, hp, buildArticle, fromtimestamp_mktime]
  | none => simp [entryArticle, hp, buildArticle, fromtimestamp_mktime]

/-- **C8 (counterexample).** With two URLs the run's event trace is strictly
sequential: the first fetch starts and ends (and the politeness sleep runs)
before the second fetch starts, and the number of in-flight fetches never
exceeds `1`.  This refutes "the fetches are not performed strictly one task
per URL sequentially". -/
theorem c8_counterexample_sequential_trace :
    runTrace ["http://a", "http://b"]
      = [FeedEvent.fetchStart "http://a", FeedEvent.fetchEnd "http://a",
         FeedEvent.sleep, FeedEvent.fetchStart "http://b",
         FeedEvent.fetchEnd "http://b", FeedEvent.sleep] ∧
    maxInFlight 0 (runTrace ["http://a", "http://b"]) = 1 :=
  ⟨rfl, rfl⟩

/-- **C8 (amended).** The pipeline is strictly sequential: it processes the
URLs one at a time in input order (each fetch completes, then
`time.sleep(0.5)` runs, before the next fetch starts), so at most one fetch
is ever in flight — there is no worker pool and no concurrent fan-out. -/
theorem c8_amended_at_most_one_in_flight (urls : List String) :
    maxInFlight 0 (runTrace urls) ≤ 1 := by
  induction urls with
  | nil => simp [runTrace, maxInFlight]
  | cons u rest ih =>
    simp only [runTrace, maxInFlight, inFlightStep, Nat.zero_add,
      Nat.sub_self]
    omega

/-- **C9.** Source-URL traceability: every article of a successful run
carries in its `feed` field exactly one of the input URLs, namely the URL
whose fetched feed contributed it. -/
theorem c9_feed_field_is_source_url (fetch : String → Option Feed)
    (tz t0 : Int) (feed_urls : List String) (days_back : Int)
    (l : List Article) (a : Article)
    (h : get_recent_articles fetch tz t0 feed_urls days_back = Except.ok l)
    (ha : a ∈ l) :
    ∃ u, u ∈ feed_urls ∧ a.feed = u
      ∧ a ∈ urlContribution fetch tz (cutoff_date tz t0 days_back) u := by
  have hl := urlsLoop_ok fetch tz (cutoff_date tz t0 days_back) feed_urls l h
  subst hl
  obtain ⟨u, hu, hmem⟩ := List.mem_flatMap.mp ha
  exact ⟨u, hu, (mem_urlContribution hmem).1, hmem⟩

theorem c9_feed_field_is_source_url_witness :
    ∃ u, u ∈ ["http://a"] ∧ sampleArticle.feed = u
      ∧ sampleArticle ∈ urlContribution sampleFetch 0 (cutoff_date 0 0 0) u :=
  c9_feed_field_is_source_url sampleFetch 0 0 ["http://a"] 0
    [sampleArticle] sampleArticle rfl (List.mem_singleton.mpr rfl)

/-- **C10.** A successful run's output preserves contribution order: it is
exactly the concatenation, over the input URL list in order, of each URL's
contribution (itself in that feed's entry order); and the stable descending
sort of `main` keeps articles with any fixed `published` value in that
contribution order. -/
theorem c10_contribution_order (fetch : String → Option Feed)
    (tz t0 : Int) (feed_urls : List String) (days_back : Int)
    (l : List Article)
    (h : get_recent_articles fetch tz t0 feed_urls days_back = Except.ok l) :
    l = feed_urls.flatMap
        (urlContribution fetch tz (cutoff_date tz t0 days_back)) ∧
    ∀ t : Int, (order l).filter (fun a => a.published == t)
      = l.filter (fun a => a.published == t) :=
  ⟨urlsLoop_ok fetch tz (cutoff_date tz t0 days_back) feed_urls l h,
   fun t => order_filter_eq l t⟩

theorem c10_contribution_order_witness :
    [sampleArticle] = ["http://a"].flatMap
        (urlContribution sampleFetch 0 (cutoff_date 0 0 0)) ∧
    (order [sampleArticle]).filter
        (fun a => a.published == structToWallSec fallbackStruct)
      = [sampleArticle].filter
        (fun a => a.published == structToWallSec fallbackStruct) := by
  have h := c10_contribution_order sampleFetch 0 0 ["http://a"] 0
    [sampleArticle] rfl
  exact ⟨h.1, h.2 (structToWallSec fallbackStruct)⟩
